import Mathlib

/-!
Shallow embedding of `src/lib/query_large_dataset.py` (class `LACrimeDatQuerier`
and the `main` orchestration).  Python strings are modelled as `String` or
`List Char`; a JSON record (an object of string fields) is modelled as an
association list `List (String × String)`; the outcome of one HTTP request is
modelled by a small inductive describing the cases the code distinguishes.
-/

/-- A record returned by the remote API: an open-ended mapping from field name
to scalar value, modelled as an association list. -/
abbrev Record := List (String × String)

/-- Keys of a record, in order (Python `record.keys()`). -/
def keys (r : Record) : List String := r.map Prod.fst

/-- Outcome of one paginated page request (`self.session.get` + `raise_for_status`
+ `.json()` inside the `try` of `query_with_pagination`): either the request
pipeline raised (`fail`) or it produced a JSON list of records (`ok`). -/
inductive PageResult where
  | ok : List Record → PageResult
  | fail : PageResult
deriving DecidableEq

/-- Observable outcome of Python `int(v)` on a decoded JSON field value `v`.
The decoded value can be a string, a number, a boolean or `None`, and for
strings the set of numerals `int` accepts (surrounding whitespace, underscore
digit grouping, every Unicode decimal digit) depends on the Unicode tables of
the running Python; what `get_total_count` observes of all this is only
whether `int(v)` returns an integer or raises, so the model carries that
outcome: `parsed n` when `int(v)` returns `n`, `malformed` when it raises
(`ValueError`/`TypeError`). -/
inductive PyNum where
  | parsed : Int → PyNum
  | malformed : PyNum
deriving DecidableEq

/-- Body of the count response, as far as `get_total_count` inspects it:
either `.json()` raises (`malformed`) or it yields a JSON list of objects,
each field carrying its `int()` outcome. -/
inductive CountBody where
  | malformed : CountBody
  | rows : List (List (String × PyNum)) → CountBody
deriving DecidableEq

/-- Transport-level outcome of the count request: either `session.get` raises
(`err`) or a response with an HTTP status code and a body arrives. -/
inductive Transport where
  | err : Transport
  | resp : Nat → CountBody → Transport
deriving DecidableEq

/-- Outcome of the bulk request made by `query_with_high_limit`: the `try`
block either raises (`fail`) or produces a JSON list of records. -/
inductive BulkOutcome where
  | fail : BulkOutcome
  | ok : List Record → BulkOutcome
deriving DecidableEq

/-- Python `int(data[0]['count'])` applied to the decoded JSON rows:
`data[0]` raises `IndexError` on an empty list, `row['count']` raises
`KeyError` when the field is absent, and `int` raises on a value it cannot
convert (its recorded `PyNum` outcome); all three are modelled by `none`. -/
def extractCount (rs : List (List (String × PyNum))) : Option Int :=
  match rs with
  | [] => none
  | row :: _ =>
    match row.lookup "count" with
    | none => none
    | some (PyNum.parsed n) => some n
    | some PyNum.malformed => none

/-- Embedding of `LACrimeDatQuerier.get_total_count`.  The call
`response.raise_for_status()` is the `requests` library primitive, which
raises `HTTPError` exactly for status codes in `[400, 600)`; any exception in
the `try` block is caught and `0` is returned. -/
def get_total_count (t : Transport) : Int :=
  match t with
  | Transport.err => 0
  | Transport.resp status body =>
    if 400 ≤ status ∧ status < 600 then 0
    else
      match body with
      | CountBody.malformed => 0
      | CountBody.rows rs =>
        match extractCount rs with
        | none => 0
        | some n => n

/-- The `while offset < total_count` loop of `query_with_pagination`.
`pages off` is the outcome of the page request issued with `$offset = off`
(and `$limit = ps`).  The function returns the accumulated records
(`all_records`) together with the list of offsets at which page requests were
issued.  The loop body increments `offset` by `limit_per_page` each round, so
with `0 < ps` at most `total` iterations happen; `fuel` only makes the
recursion structural and is instantiated with `total` by the wrapper. -/
def pagLoop (pages : Nat → PageResult) (total ps : Nat) :
    Nat → Nat → List Record → List Nat → List Record × List Nat
  | 0, _, acc, reqs => (acc, reqs)
  | fuel + 1, offset, acc, reqs =>
    if offset < total then
      match pages offset with
      | PageResult.fail => (acc, reqs ++ [offset])
      | PageResult.ok pd =>
        if pd = [] then (acc, reqs ++ [offset])
        else pagLoop pages total ps fuel (offset + ps) (acc ++ pd) (reqs ++ [offset])
    else (acc, reqs)

/-- Embedding of `LACrimeDatQuerier.query_with_pagination`, parameterized by
the already-computed `total_count` (a Python `int`, hence `Int`) and by the
page-request outcomes.  If `total_count == 0` the function returns `[]`
immediately; a negative total also yields no requests because the `while`
guard `offset < total_count` fails at once (here: the loop runs with
`total.toNat = 0`). -/
def query_with_pagination (pages : Nat → PageResult) (total : Int) (ps : Nat) :
    List Record × List Nat :=
  if total = 0 then ([], [])
  else pagLoop pages total.toNat ps total.toNat 0 [] []

/-- `query_with_pagination` as the code runs it: the total comes from
`get_total_count`. -/
def query_with_pagination_run (t : Transport) (pages : Nat → PageResult)
    (ps : Nat) : List Record × List Nat :=
  query_with_pagination pages (get_total_count t) ps

/-- Embedding of `LACrimeDatQuerier.query_with_high_limit`: the `try` block
either returns the decoded list or the handler returns `[]`. -/
def query_with_high_limit (b : BulkOutcome) : List Record :=
  match b with
  | BulkOutcome.fail => []
  | BulkOutcome.ok l => l

/-- The record-retrieval part of `main`: try the high-limit query first; if
the result is falsy (empty) or has length exactly 50000, replace it by the
result of `query_with_pagination` (which `main` calls with the default
`limit_per_page=1000`). -/
def mainFetch (b : BulkOutcome) (t : Transport) (pages : Nat → PageResult) :
    List Record :=
  let data := query_with_high_limit b
  if data = [] ∨ data.length = 50000 then (query_with_pagination_run t pages 1000).1
  else data

/-- Records delivered by the page requested at offset `i * ps` (empty for a
failed request); used only to state theorems about the loop. -/
def pageRecords (pages : Nat → PageResult) (ps i : Nat) : List Record :=
  match pages (i * ps) with
  | PageResult.ok l => l
  | PageResult.fail => []

/-- Model of Python `sep.join(parts)` on strings-as-character-lists. -/
def joinSep (sep : List Char) : List (List Char) → List Char
  | [] => []
  | [d] => d
  | d :: e :: ds => d ++ sep ++ joinSep sep (e :: ds)

/-- Embedding of `LACrimeDatQuerier.build_where_clause`.  The Python f-string
is the concatenation of the fixed fragments with the joined district list and
the two dates. -/
def build_where_clause (districts : List (List Char))
    (start_date end_date : List Char) : List Char :=
  let district_list := joinSep "', '".toList districts
  "rpt_dist_no IN ('".toList ++ district_list ++ "') AND date_occ >= '".toList
    ++ start_date ++ "' AND date_occ <= '".toList ++ end_date ++ "'".toList

/-- Does `pat` occur at the very start of `s`? -/
def startsWithL : List Char → List Char → Bool
  | [], _ => true
  | _ :: _, [] => false
  | a :: p, b :: s => a == b && startsWithL p s

/-- Number of positions of `s` at which `pat` occurs as a substring. -/
def substrCount (pat s : List Char) : Nat :=
  ((List.range (s.length + 1)).filter (fun i => startsWithL pat (s.drop i))).length

/-- An ISO-8601 calendar date string: `DDDD-DD-DD` with decimal digits. -/
def isIsoDate (s : List Char) : Bool :=
  match s with
  | [a, b, c, d, h1, e, f, h2, g, h] =>
    a.isDigit && b.isDigit && c.isDigit && d.isDigit && h1 == '-' &&
      e.isDigit && f.isDigit && h2 == '-' && g.isDigit && h.isDigit
  | _ => false

/-- Lexicographic comparison of strings-as-character-lists (Python `<=`). -/
def charListLe : List Char → List Char → Bool
  | [], _ => true
  | _ :: _, [] => false
  | a :: s, b :: t => a < b || (a == b && charListLe s t)

/-- Insert a string into a sorted list of strings. -/
def insertStr (x : String) : List String → List String
  | [] => [x]
  | y :: ys => if charListLe x.toList y.toList then x :: y :: ys else y :: insertStr x ys

/-- Insertion sort on strings, modelling Python `sorted` on a list of keys
(lexicographic by code point). -/
def sortStrings : List String → List String
  | [] => []
  | x :: xs => insertStr x (sortStrings xs)

/-- Fieldnames computed by `save_to_csv`: the union of all record key sets
(`all_keys`, a Python set, modelled as a duplicate-free list) sorted for a
consistent column order. -/
def fieldnamesOf (data : List Record) : List String :=
  sortStrings ((data.map keys).flatten.dedup)

/-- Does a cell need quoting under the csv module's default QUOTE_MINIMAL
dialect (delimiter, quotechar, or line-break characters present)? -/
def needsQuote (s : String) : Bool :=
  s.toList.any (fun c => c == ',' || c == '\"' || c == '\n' || c == '\r')

/-- Double every quote character of a cell (csv doublequote escaping). -/
def escapeQuotes (s : String) : String :=
  ⟨s.toList.foldr (fun c a => if c == '\"' then '\"' :: '\"' :: a else c :: a) []⟩

/-- One CSV cell under the default dialect. -/
def quoteCell (s : String) : String :=
  if needsQuote s then "\"" ++ escapeQuotes s ++ "\"" else s

/-- One CSV line produced by the csv writer for a list of cells. -/
def csvLine (cells : List String) : String :=
  String.intercalate "," (cells.map quoteCell)

/-- Is an `Except` result a success? -/
def isOkRow (e : Except String (List String)) : Bool :=
  match e with
  | Except.ok _ => true
  | Except.error _ => false

/-- Embedding of `csv.DictWriter.writerow` for one record: the writer first
checks `wrong_fields = rowdict.keys() - self.fieldnames` and raises
`ValueError` when a key is not a fieldname; otherwise it emits
`rowdict.get(key, restval)` for each fieldname, with `restval = ''`. -/
def dictToRow (fieldnames : List String) (r : Record) : Except String (List String) :=
  if (keys r).all (fun k => decide (k ∈ fieldnames)) then
    Except.ok (fieldnames.map (fun f => (r.lookup f).getD ""))
  else
    Except.error "dict contains fields not in fieldnames"

/-- The row-writing portion of `save_to_csv`: write each record in order,
appending one CSV line per record to the file contents; an exception from
`writerow` is caught by the surrounding `except`, which returns `False`
leaving the lines written so far in the file — modelled by returning the
partial line list. -/
def writeRows (fieldnames : List String) :
    List Record → List String → Bool × Option (List String)
  | [], acc => (true, some acc)
  | r :: rs, acc =>
    match dictToRow fieldnames r with
    | Except.error _ => (false, some acc)
    | Except.ok row => writeRows fieldnames rs (acc ++ [csvLine row])

/-- Embedding of `LACrimeDatQuerier.save_to_csv`.  The boolean is the return
value; the second component is the contents of the destination file as a list
of lines, `none` when the file was never opened (empty input returns `False`
before any write). -/
def save_to_csv (data : List Record) : Bool × Option (List String) :=
  if data = [] then (false, none)
  else
    let fieldnames := fieldnamesOf data
    writeRows fieldnames data [csvLine fieldnames]

/-- Concrete one-field record used in witnesses and counterexamples. -/
def recA : Record := [("dr_no", "1")]

/-- Second concrete record used in witnesses. -/
def recB : Record := [("dr_no", "2")]

/-- The two-record sparse-schema input from the specification's CSV test. -/
def recs8 : List Record := [[("a", "1"), ("b", "2")], [("a", "3")]]

/-- Page responses where every page succeeds with exactly one record. -/
def pagesOne : Nat → PageResult := fun _ => PageResult.ok [recA]

/-- Page responses: offsets 0 and 1 succeed with one record each, every
later offset fails. -/
def pagesC6 : Nat → PageResult := fun n =>
  if n = 0 then PageResult.ok [recA]
  else if n = 1 then PageResult.ok [recB]
  else PageResult.fail

/-- Page responses where every page succeeds with an empty record list. -/
def pagesEmpty : Nat → PageResult := fun _ => PageResult.ok []

/-! Theorems. -/

/-- C9: `save_to_csv` on the empty record list returns `False` and performs
no write: the destination file is never opened, so no file is created and the
destination path is unchanged. -/
theorem save_to_csv_empty_no_write : save_to_csv [] = (false, none) := rfl

/-- C8: on `[{"a":"1","b":"2"}, {"a":"3"}]` the exporter writes the header
line `a,b` (sorted union of the keys) followed by the lines `1,2` and `3,`
(the record missing `b` contributes an empty final field) and returns
`True`. -/
theorem save_to_csv_sparse_schema :
    save_to_csv recs8 = (true, some ["a,b", "1,2", "3,"]) := by decide

/-- C2: the orchestration keeps the bulk result unless it is empty or has
length exactly 50000, in which case the final record set is the paginated
one. -/
theorem main_bulk_fallback (b : BulkOutcome) (t : Transport)
    (pages : Nat → PageResult) :
    (query_with_high_limit b = [] ∨ (query_with_high_limit b).length = 50000 →
        mainFetch b t pages = (query_with_pagination_run t pages 1000).1)
    ∧ (query_with_high_limit b ≠ [] → (query_with_high_limit b).length ≠ 50000 →
        mainFetch b t pages = query_with_high_limit b) := by
  constructor
  · intro h
    simp only [mainFetch]
    rw [if_pos h]
  · intro h1 h2
    simp only [mainFetch]
    rw [if_neg]
    simp [h1, h2]

/-- Witness for C2: a 2-record bulk result is kept unchanged, and a failed
bulk fetch falls back to the paginated result. -/
theorem main_bulk_fallback_witness :
    mainFetch (BulkOutcome.ok [recA, recB]) Transport.err pagesOne = [recA, recB]
    ∧ mainFetch BulkOutcome.fail Transport.err pagesOne
        = (query_with_pagination_run Transport.err pagesOne 1000).1 :=
  ⟨(main_bulk_fallback (BulkOutcome.ok [recA, recB]) Transport.err pagesOne).2
      (by decide) (by decide),
   (main_bulk_fallback BulkOutcome.fail Transport.err pagesOne).1 (Or.inl rfl)⟩

/-- C4 (amended): `get_total_count` returns 0 on a transport error, on any
HTTP status in 400–599 (the statuses for which `raise_for_status` raises),
and on a body from which no integer count can be extracted; on a 2xx response
with a well-formed body it returns the integer count. -/
theorem get_total_count_error_policy :
    get_total_count Transport.err = 0
    ∧ (∀ s b, 400 ≤ s → s < 600 → get_total_count (Transport.resp s b) = 0)
    ∧ (∀ s, ¬(400 ≤ s ∧ s < 600) →
        get_total_count (Transport.resp s CountBody.malformed) = 0)
    ∧ (∀ s rs, ¬(400 ≤ s ∧ s < 600) → extractCount rs = none →
        get_total_count (Transport.resp s (CountBody.rows rs)) = 0)
    ∧ (∀ s rs n, 200 ≤ s → s < 300 → extractCount rs = some n →
        get_total_count (Transport.resp s (CountBody.rows rs)) = n) := by
  refine ⟨rfl, ?_, ?_, ?_, ?_⟩
  · intro s b h1 h2
    simp only [get_total_count]
    rw [if_pos ⟨h1, h2⟩]
  · intro s h
    simp only [get_total_count]
    rw [if_neg h]
  · intro s rs h hx
    simp only [get_total_count]
    rw [if_neg h, hx]
  · intro s rs n h1 h2 hx
    simp only [get_total_count]
    rw [if_neg (by omega), hx]

/-- Witness for C4 (amended): concrete failing and succeeding count
responses. -/
theorem get_total_count_error_policy_witness :
    get_total_count (Transport.resp 404 CountBody.malformed) = 0
    ∧ get_total_count (Transport.resp 200 CountBody.malformed) = 0
    ∧ get_total_count (Transport.resp 200 (CountBody.rows [])) = 0
    ∧ get_total_count
        (Transport.resp 200 (CountBody.rows [[("count", PyNum.parsed 42)]])) = 42 :=
  ⟨get_total_count_error_policy.2.1 404 CountBody.malformed (by decide) (by decide),
   get_total_count_error_policy.2.2.1 200 (by decide),
   get_total_count_error_policy.2.2.2.1 200 [] (by decide) rfl,
   get_total_count_error_policy.2.2.2.2 200 [[("count", PyNum.parsed 42)]] 42
     (by decide) (by decide) (by decide)⟩

/-- Counterexample to C4 as stated: a 300 status is not 2xx, yet
`raise_for_status` does not raise for it, so a well-formed body makes
`get_total_count` return the count instead of 0. -/
theorem get_total_count_non2xx_counterexample :
    ¬ (200 ≤ 300 ∧ (300 : Nat) < 300)
    ∧ get_total_count
        (Transport.resp 300 (CountBody.rows [[("count", PyNum.parsed 7)]])) = 7 :=
  ⟨by decide, by decide⟩

/-- C5: when the count comes back 0, the paginated fetch returns the empty
record set immediately and issues no page requests at all. -/
theorem pagination_zero_count (t : Transport) (pages : Nat → PageResult)
    (ps : Nat) (h : get_total_count t = 0) :
    query_with_pagination_run t pages ps = ([], []) := by
  simp [query_with_pagination_run, query_with_pagination, h]

/-- Witness for C5: a failed count request yields count 0 and an empty
paginated run. -/
theorem pagination_zero_count_witness :
    query_with_pagination_run Transport.err pagesOne 1000 = ([], []) :=
  pagination_zero_count Transport.err pagesOne 1000 rfl

/-- Unfolding lemma: a positive total makes `query_with_pagination` run the
loop with fuel `total`. -/
theorem query_with_pagination_pos (pages : Nat → PageResult) (T ps : Nat)
    (h : 0 < T) :
    query_with_pagination pages (T : Int) ps = pagLoop pages T ps T 0 [] [] := by
  unfold query_with_pagination
  rw [if_neg (Int.natCast_ne_zero.mpr (Nat.pos_iff_ne_zero.mp h)), Int.toNat_natCast]

/-- The loop returns the accumulator unchanged once `offset < total` fails. -/
theorem pagLoop_stop (pages : Nat → PageResult) (total ps fuel offset : Nat)
    (acc : List Record) (reqs : List Nat) (h : ¬ offset < total) :
    pagLoop pages total ps fuel offset acc reqs = (acc, reqs) := by
  cases fuel with
  | zero => rfl
  | succ fuel => simp [pagLoop, h]

/-- One loop round on a failed page request: stop with the records gathered
so far. -/
theorem pagLoop_step_fail (pages : Nat → PageResult) (total ps fuel offset : Nat)
    (acc : List Record) (reqs : List Nat) (h : offset < total)
    (hpg : pages offset = PageResult.fail) :
    pagLoop pages total ps (fuel + 1) offset acc reqs = (acc, reqs ++ [offset]) := by
  simp [pagLoop, h, hpg]

/-- One loop round on an empty page: stop with the records gathered so far. -/
theorem pagLoop_step_nil (pages : Nat → PageResult) (total ps fuel offset : Nat)
    (acc : List Record) (reqs : List Nat) (h : offset < total)
    (hpg : pages offset = PageResult.ok []) :
    pagLoop pages total ps (fuel + 1) offset acc reqs = (acc, reqs ++ [offset]) := by
  simp [pagLoop, h, hpg]

/-- One loop round on a non-empty page: extend the accumulator and advance
the offset by the page size. -/
theorem pagLoop_step_cons (pages : Nat → PageResult) (total ps fuel offset : Nat)
    (acc : List Record) (reqs : List Nat) (pd : List Record) (h : offset < total)
    (hpg : pages offset = PageResult.ok pd) (hpd : pd ≠ []) :
    pagLoop pages total ps (fuel + 1) offset acc reqs
      = pagLoop pages total ps fuel (offset + ps) (acc ++ pd) (reqs ++ [offset]) := by
  simp [pagLoop, h, hpg, hpd]

/-- Every list starts with itself. -/
theorem selfStart {α : Type} (l : List α) : l <+: l :=
  ⟨[], List.append_nil l⟩

/-- A list starting with `l ++ m` starts with `l`. -/
theorem growLeft {α : Type} (l m r : List α) (h : (l ++ m) <+: r) : l <+: r := by
  obtain ⟨t, ht⟩ := h
  exact ⟨m ++ t, by rw [← ht, List.append_assoc]⟩

/-- The accumulator entering any loop state is a prefix of the records the
loop finally returns: the accumulated record set only ever grows. -/
theorem pagLoop_acc_mono (pages : Nat → PageResult) (total ps : Nat) :
    ∀ (fuel offset : Nat) (acc : List Record) (reqs : List Nat),
      acc <+: (pagLoop pages total ps fuel offset acc reqs).1 := by
  intro fuel
  induction fuel with
  | zero => intro offset acc reqs; exact selfStart acc
  | succ fuel ih =>
    intro offset acc reqs
    by_cases h : offset < total
    · cases hpg : pages offset with
      | fail =>
        rw [pagLoop_step_fail _ _ _ _ _ _ _ h hpg]
      | ok pd =>
        by_cases hpd : pd = []
        · subst hpd
          rw [pagLoop_step_nil _ _ _ _ _ _ _ h hpg]
        · rw [pagLoop_step_cons _ _ _ _ _ _ _ _ h hpg hpd]
          exact growLeft acc pd _ (ih (offset + ps) (acc ++ pd) (reqs ++ [offset]))
    · rw [pagLoop_stop _ _ _ _ _ _ _ h]

/-- Length invariant of the loop: when every successful page holds at most
`ps` records and the accumulator entering a state of offset `offset` has at
most `offset` records, the final record count stays below
`max offset (total + ps)`. -/
theorem pagLoop_length_le (pages : Nat → PageResult) (total ps : Nat)
    (Hp : ∀ off l, pages off = PageResult.ok l → l.length ≤ ps) :
    ∀ (fuel offset : Nat) (acc : List Record) (reqs : List Nat),
      acc.length ≤ offset →
      (pagLoop pages total ps fuel offset acc reqs).1.length
        ≤ max offset (total + ps) := by
  intro fuel
  induction fuel with
  | zero =>
    intro offset acc reqs hacc
    have : (pagLoop pages total ps 0 offset acc reqs).1 = acc := rfl
    rw [this]
    omega
  | succ fuel ih =>
    intro offset acc reqs hacc
    by_cases h : offset < total
    · cases hpg : pages offset with
      | fail =>
        rw [pagLoop_step_fail _ _ _ _ _ _ _ h hpg]
        simp only []
        omega
      | ok pd =>
        by_cases hpd : pd = []
        · subst hpd
          rw [pagLoop_step_nil _ _ _ _ _ _ _ h hpg]
          simp only []
          omega
        · rw [pagLoop_step_cons _ _ _ _ _ _ _ _ h hpg hpd]
          have hlen : pd.length ≤ ps := Hp offset pd hpg
          have h1 : (acc ++ pd).length ≤ offset + ps := by
            rw [List.length_append]; omega
          have h2 := ih (offset + ps) (acc ++ pd) (reqs ++ [offset]) h1
          omega
    · rw [pagLoop_stop _ _ _ _ _ _ _ h]
      simp only []
      omega

/-- C3: when every successful page carries at most `ps` records, the
paginated fetch returns at most `total + ps` records, and along the loop the
accumulated record list only grows (each state's accumulator is a prefix of
the final one). -/
theorem pagination_length_and_mono (pages : Nat → PageResult) (T ps : Nat)
    (Hp : ∀ off l, pages off = PageResult.ok l → l.length ≤ ps) :
    (query_with_pagination pages (T : Int) ps).1.length ≤ T + ps
    ∧ ∀ (fuel offset : Nat) (acc : List Record) (reqs : List Nat),
        acc <+: (pagLoop pages T ps fuel offset acc reqs).1 := by
  constructor
  · by_cases hT : T = 0
    · subst hT; simp [query_with_pagination]
    · rw [query_with_pagination_pos pages T ps (Nat.pos_of_ne_zero hT)]
      have h := pagLoop_length_le pages T ps Hp T 0 [] [] (by simp)
      omega
  · exact pagLoop_acc_mono pages T ps

/-- Witness for C3 at a concrete input: empty pages of size at most 2 with
count 3, and a concrete loop state whose accumulator persists. -/
theorem pagination_length_and_mono_witness :
    (query_with_pagination pagesEmpty ((3 : Nat) : Int) 2).1.length ≤ 3 + 2
    ∧ [recA] <+: (pagLoop pagesEmpty 3 2 3 0 [recA] []).1 := by
  have hp : ∀ off l, pagesEmpty off = PageResult.ok l → l.length ≤ 2 := by
    intro off l hl
    simp only [pagesEmpty, PageResult.ok.injEq] at hl
    subst hl
    simp
  exact ⟨(pagination_length_and_mono pagesEmpty 3 2 hp).1,
    (pagination_length_and_mono pagesEmpty 3 2 hp).2 3 0 [recA] []⟩

/-- C6: if the pages at offsets 0 and `ps` succeed with non-empty record
lists, the page at offset `2*ps` fails, and the count calls for five pages
(`4*ps < total ≤ 5*ps`), then the paginated fetch returns exactly the records
of the first two pages and requests each of the three offsets once — no
retry, no exception. -/
theorem pagination_partial_on_failure (pages : Nat → PageResult)
    (total ps : Nat) (p1 p2 : List Record) (hps : 0 < ps)
    (h4 : 4 * ps < total) (h5 : total ≤ 5 * ps)
    (hp1 : pages 0 = PageResult.ok p1) (hp1ne : p1 ≠ [])
    (hp2 : pages ps = PageResult.ok p2) (hp2ne : p2 ≠ [])
    (hp3 : pages (2 * ps) = PageResult.fail) :
    query_with_pagination pages (total : Int) ps = (p1 ++ p2, [0, ps, 2 * ps]) := by
  have hT : 0 < total := by omega
  rw [query_with_pagination_pos pages total ps hT]
  obtain ⟨f, rfl⟩ : ∃ f, total = f + 3 := ⟨total - 3, by omega⟩
  rw [pagLoop_step_cons _ _ _ _ _ _ _ _ (by omega) hp1 hp1ne]
  simp only [Nat.zero_add, List.nil_append]
  rw [pagLoop_step_cons _ _ _ _ _ _ _ _ (by omega) hp2 hp2ne]
  have h2ps : ps + ps = 2 * ps := by ring
  rw [h2ps]
  rw [pagLoop_step_fail _ _ _ _ _ _ _ (by omega) hp3]
  simp

/-- Witness for C6: a concrete five-page run with page size 1, count 5, two
one-record pages and a failure at the third offset. -/
theorem pagination_partial_on_failure_witness :
    query_with_pagination pagesC6 ((5 : Nat) : Int) 1
      = ([recA] ++ [recB], [0, 1, 2 * 1]) :=
  pagination_partial_on_failure pagesC6 5 1 [recA] [recB] (by decide) (by decide)
    (by decide) (by decide) (by decide) (by decide) (by decide) (by decide)

/-- Characterization of a whole loop run starting at page `j` (offset
`j * ps`): for some number `m` of issued requests, the requested offsets are
`j*ps, (j+1)*ps, …`, every request before the last answered a non-empty page
while its offset was still below `total`, and the run ended for one of the
reasons the loop can end: the offset reached `total` (with the last page also
non-empty), the last page was empty, or the last request failed — with the
returned records being the concatenation of the non-empty pages. -/
theorem pagLoop_char (pages : Nat → PageResult) (total ps : Nat) (hps : 0 < ps) :
    ∀ (fuel j : Nat) (acc : List Record) (reqs : List Nat),
      total ≤ j * ps + fuel * ps →
      ∃ m : Nat,
        (pagLoop pages total ps fuel (j * ps) acc reqs).2
            = reqs ++ (List.range' j m).map (fun i => i * ps) ∧
        (∀ i : Nat, j ≤ i → i + 1 < j + m →
            (∃ l, pages (i * ps) = PageResult.ok l ∧ l ≠ []) ∧ i * ps < total) ∧
        ((m = 0 ∧ total ≤ j * ps
            ∧ pagLoop pages total ps fuel (j * ps) acc reqs = (acc, reqs))
         ∨ (0 < m ∧ total ≤ (j + m) * ps ∧ (j + m - 1) * ps < total
              ∧ (∃ l, pages ((j + m - 1) * ps) = PageResult.ok l ∧ l ≠ [])
              ∧ (pagLoop pages total ps fuel (j * ps) acc reqs).1
                  = acc ++ ((List.range' j m).map (pageRecords pages ps)).flatten)
         ∨ (0 < m ∧ (j + m - 1) * ps < total
              ∧ pages ((j + m - 1) * ps) = PageResult.ok []
              ∧ (pagLoop pages total ps fuel (j * ps) acc reqs).1
                  = acc ++ ((List.range' j (m - 1)).map (pageRecords pages ps)).flatten)
         ∨ (0 < m ∧ (j + m - 1) * ps < total
              ∧ pages ((j + m - 1) * ps) = PageResult.fail
              ∧ (pagLoop pages total ps fuel (j * ps) acc reqs).1
                  = acc ++ ((List.range' j (m - 1)).map (pageRecords pages ps)).flatten)) := by
  intro fuel
  induction fuel with
  | zero =>
    intro j acc reqs h
    have hstop : total ≤ j * ps := by simpa using h
    refine ⟨0, by simp [pagLoop], ?_, Or.inl ⟨rfl, hstop, rfl⟩⟩
    intro i h1 h2
    omega
  | succ fuel ih =>
    intro j acc reqs h
    by_cases hlt : j * ps < total
    · cases hpg : pages (j * ps) with
      | fail =>
        refine ⟨1, ?_, ?_, ?_⟩
        · rw [pagLoop_step_fail _ _ _ _ _ _ _ hlt hpg]
          simp
        · intro i h1 h2; omega
        · right; right; right
          refine ⟨Nat.one_pos, by simpa using hlt, by simpa using hpg, ?_⟩
          rw [pagLoop_step_fail _ _ _ _ _ _ _ hlt hpg]
          simp
      | ok pd =>
        by_cases hpd : pd = []
        · subst hpd
          refine ⟨1, ?_, ?_, ?_⟩
          · rw [pagLoop_step_nil _ _ _ _ _ _ _ hlt hpg]
            simp
          · intro i h1 h2; omega
          · right; right; left
            refine ⟨Nat.one_pos, by simpa using hlt, by simpa using hpg, ?_⟩
            rw [pagLoop_step_nil _ _ _ _ _ _ _ hlt hpg]
            simp
        · have hstep := pagLoop_step_cons pages total ps fuel (j * ps) acc reqs pd hlt hpg hpd
          have harith : j * ps + ps = (j + 1) * ps := by ring
          rw [harith] at hstep
          have h' : total ≤ (j + 1) * ps + fuel * ps := by
            refine le_trans h (le_of_eq ?_)
            ring
          obtain ⟨m', hreq', hall', hcase'⟩ := ih (j + 1) (acc ++ pd) (reqs ++ [j * ps]) h'
          refine ⟨m' + 1, ?_, ?_, ?_⟩
          · rw [hstep, hreq', List.range'_succ]
            simp
          · intro i hji hi
            rcases Nat.eq_or_lt_of_le hji with heq | hlt2
            · subst heq
              exact ⟨⟨pd, hpg, hpd⟩, hlt⟩
            · exact hall' i hlt2 (by omega)
          · rcases hcase' with ⟨hm0, hle', heq'⟩ | ⟨hm, hA, hB, hC, hD⟩ |
              ⟨hm, hB, hC, hD⟩ | ⟨hm, hB, hC, hD⟩
            · subst hm0
              right; left
              refine ⟨Nat.one_pos, by simpa using hle', by simpa using hlt,
                ⟨pd, by simpa using hpg, hpd⟩, ?_⟩
              rw [hstep, heq', List.range'_succ]
              simp [pageRecords, hpg]
            · right; left
              have hidx : j + (m' + 1) - 1 = j + 1 + m' - 1 := by omega
              have hsum : j + (m' + 1) = j + 1 + m' := by omega
              refine ⟨Nat.succ_pos m', by rw [hsum]; exact hA, by rw [hidx]; exact hB,
                by rw [hidx]; exact hC, ?_⟩
              rw [hstep, hD, List.range'_succ]
              simp [pageRecords, hpg]
            · right; right; left
              have hidx : j + (m' + 1) - 1 = j + 1 + m' - 1 := by omega
              refine ⟨Nat.succ_pos m', by rw [hidx]; exact hB, by rw [hidx]; exact hC, ?_⟩
              obtain ⟨m'', rfl⟩ : ∃ m'', m' = m'' + 1 := ⟨m' - 1, by omega⟩
              rw [hstep, hD]
              have hred : m'' + 1 + 1 - 1 = m'' + 1 := rfl
              rw [hred, List.range'_succ]
              simp [pageRecords, hpg]
            · right; right; right
              have hidx : j + (m' + 1) - 1 = j + 1 + m' - 1 := by omega
              refine ⟨Nat.succ_pos m', by rw [hidx]; exact hB, by rw [hidx]; exact hC, ?_⟩
              obtain ⟨m'', rfl⟩ : ∃ m'', m' = m'' + 1 := ⟨m' - 1, by omega⟩
              rw [hstep, hD]
              have hred : m'' + 1 + 1 - 1 = m'' + 1 := rfl
              rw [hred, List.range'_succ]
              simp [pageRecords, hpg]
    · refine ⟨0, ?_, ?_, Or.inl ⟨rfl, by omega, pagLoop_stop _ _ _ _ _ _ _ hlt⟩⟩
      · rw [pagLoop_stop _ _ _ _ _ _ _ hlt]
        simp
      · intro i h1 h2
        omega

/-- C1 (amended): for a positive page size and count, the paginated fetch
requests pages of size `ps` at offsets `0, ps, 2*ps, …`; each page before the
last was non-empty and was requested while its offset was below the count;
and the run stops exactly when the next offset (`k*ps` after `k` pages)
reaches the count, when a page comes back empty, or when a page request
fails — in the last two cases the records accumulated before the failing or
empty page are returned, not discarded. -/
theorem pagination_stop_characterization (pages : Nat → PageResult)
    (total ps : Nat) (hps : 0 < ps) (htot : 0 < total) :
    ∃ k : Nat, 0 < k ∧
      (query_with_pagination pages (total : Int) ps).2
          = (List.range k).map (fun i => i * ps) ∧
      (∀ i : Nat, i + 1 < k →
          (∃ l, pages (i * ps) = PageResult.ok l ∧ l ≠ []) ∧ i * ps < total) ∧
      ((total ≤ k * ps ∧ (k - 1) * ps < total
          ∧ (∃ l, pages ((k - 1) * ps) = PageResult.ok l ∧ l ≠ [])
          ∧ (query_with_pagination pages (total : Int) ps).1
              = ((List.range k).map (pageRecords pages ps)).flatten)
       ∨ ((k - 1) * ps < total ∧ pages ((k - 1) * ps) = PageResult.ok []
          ∧ (query_with_pagination pages (total : Int) ps).1
              = ((List.range (k - 1)).map (pageRecords pages ps)).flatten)
       ∨ ((k - 1) * ps < total ∧ pages ((k - 1) * ps) = PageResult.fail
          ∧ (query_with_pagination pages (total : Int) ps).1
              = ((List.range (k - 1)).map (pageRecords pages ps)).flatten)) := by
  rw [query_with_pagination_pos pages total ps htot]
  have h0 : total ≤ 0 * ps + total * ps := by
    simpa using Nat.le_mul_of_pos_right total hps
  have hchar := pagLoop_char pages total ps hps total 0 [] [] h0
  rw [Nat.zero_mul] at hchar
  obtain ⟨m, hreq, hall, hcase⟩ := hchar
  have hmpos : 0 < m := by
    rcases hcase with ⟨hm0, hle, _⟩ | ⟨hm, _⟩ | ⟨hm, _⟩ | ⟨hm, _⟩
    · exfalso
      simp at hle
      omega
    · exact hm
    · exact hm
    · exact hm
  refine ⟨m, hmpos, ?_, ?_, ?_⟩
  · rw [hreq, List.range_eq_range']
    simp
  · intro i hi
    exact hall i (Nat.zero_le i) (by omega)
  · rcases hcase with ⟨hm0, _, _⟩ | ⟨_, hA, hB, hC, hD⟩ | ⟨_, hB, hC, hD⟩ |
      ⟨_, hB, hC, hD⟩
    · omega
    · left
      refine ⟨by simpa using hA, by simpa using hB, by simpa using hC, ?_⟩
      rw [hD, List.range_eq_range']
      simp
    · right; left
      refine ⟨by simpa using hB, by simpa using hC, ?_⟩
      rw [hD, List.range_eq_range']
      simp
    · right; right
      refine ⟨by simpa using hB, by simpa using hC, ?_⟩
      rw [hD, List.range_eq_range']
      simp

/-- Witness for C1 (amended): with count 1, page size 1 and an always-full
page source, the characterization applies and at least one page request is
issued. -/
theorem pagination_stop_characterization_witness :
    (query_with_pagination pagesOne ((1 : Nat) : Int) 1).2 ≠ [] := by
  obtain ⟨k, hk, hreq, -, -⟩ :=
    pagination_stop_characterization pagesOne 1 1 Nat.one_pos Nat.one_pos
  intro hcon
  rw [hcon] at hreq
  have hnil := hreq.symm
  rw [List.map_eq_nil_iff, List.range_eq_nil] at hnil
  omega

/-- Counterexample to C1 as stated: with count 10, page size 10 and pages
that always deliver exactly one record, the loop requests only offset 0 and
stops with 1 accumulated record — fewer than the count — although no
requested page was empty and none failed, so none of the claimed stopping
conditions (accumulated ≥ total, empty page, failed request) holds at the
stop. -/
theorem pagination_stop_counterexample :
    (query_with_pagination pagesOne ((10 : Nat) : Int) 10).2 = [0]
    ∧ (query_with_pagination pagesOne ((10 : Nat) : Int) 10).1.length = 1
    ∧ ¬ 10 ≤ (query_with_pagination pagesOne ((10 : Nat) : Int) 10).1.length
    ∧ pagesOne 0 ≠ PageResult.ok []
    ∧ pagesOne 0 ≠ PageResult.fail := by decide

/-- A pattern occurs at the start of any extension of itself. -/
theorem startsWithL_self (pat t : List Char) : startsWithL pat (pat ++ t) = true := by
  induction pat with
  | nil => rfl
  | cons c cs ih => simp [startsWithL, ih]

/-- A substring occurring somewhere in `s` is counted at least once by
`substrCount`. -/
theorem substrCount_pos (pat s : List Char) (h : pat <:+: s) :
    0 < substrCount pat s := by
  obtain ⟨u, v, huv⟩ := h
  have hdrop : s.drop u.length = pat ++ v := by
    rw [← huv, List.append_assoc, List.drop_left]
  have hsw : startsWithL pat (s.drop u.length) = true := by
    rw [hdrop]
    exact startsWithL_self pat v
  have hmem : u.length ∈
      (List.range (s.length + 1)).filter (fun i => startsWithL pat (s.drop i)) := by
    rw [List.mem_filter]
    refine ⟨?_, hsw⟩
    rw [List.mem_range]
    have : u.length ≤ s.length := by
      rw [← huv]
      simp [List.length_append]
    omega
  unfold substrCount
  exact List.length_pos.mpr (List.ne_nil_of_mem hmem)

/-- An infix of `m` is an infix of any string enclosing `m`. -/
theorem midGrow {α : Type} (p q m l : List α) (h : l <:+: m) :
    l <:+: p ++ m ++ q := by
  obtain ⟨s, t, hst⟩ := h
  exact ⟨p ++ s, t ++ q, by rw [← hst]; simp [List.append_assoc]⟩

/-- Every member of the joined list occurs in the join. -/
theorem memJoinSep (sep d : List Char) (ds : List (List Char)) (hd : d ∈ ds) :
    d <:+: joinSep sep ds := by
  induction ds with
  | nil => cases hd
  | cons x t iht =>
    cases t with
    | nil =>
      have hx : d = x := by simpa using hd
      subst hx
      exact ⟨[], [], by simp [joinSep]⟩
    | cons y t2 =>
      rcases List.mem_cons.mp hd with heq | hmem
      · subst heq
        exact ⟨[], sep ++ joinSep sep (y :: t2), by simp [joinSep, List.append_assoc]⟩
      · obtain ⟨s, t3, hst⟩ := iht hmem
        exact ⟨x ++ sep ++ s, t3, by simp [joinSep, ← hst, List.append_assoc]⟩

/-- The WHERE clause contains every district of the list and both dates as
substrings. -/
theorem build_where_clause_contains (districts : List (List Char))
    (sd ed : List Char) :
    (∀ d ∈ districts, d <:+: build_where_clause districts sd ed)
    ∧ sd <:+: build_where_clause districts sd ed
    ∧ ed <:+: build_where_clause districts sd ed := by
  refine ⟨?_, ?_, ?_⟩
  · intro d hd
    obtain ⟨s, t, hst⟩ := memJoinSep "', '".toList d districts hd
    refine ⟨"rpt_dist_no IN ('".toList ++ s,
      t ++ "') AND date_occ >= '".toList ++ sd ++ "' AND date_occ <= '".toList
        ++ ed ++ "'".toList, ?_⟩
    simp only [build_where_clause]
    rw [← hst]
    simp [List.append_assoc]
  · exact ⟨"rpt_dist_no IN ('".toList ++ joinSep "', '".toList districts
        ++ "') AND date_occ >= '".toList,
      "' AND date_occ <= '".toList ++ ed ++ "'".toList,
      by simp [build_where_clause, List.append_assoc]⟩
  · exact ⟨"rpt_dist_no IN ('".toList ++ joinSep "', '".toList districts
        ++ "') AND date_occ >= '".toList ++ sd ++ "' AND date_occ <= '".toList,
      "'".toList,
      by simp [build_where_clause, List.append_assoc]⟩

/-- C7 (amended): for a non-empty district list and ISO dates in order, the
clause built by `build_where_clause` contains every district code at least
once and contains both boundary dates. -/
theorem build_where_clause_amended (districts : List (List Char))
    (sd ed : List Char) (hne : districts ≠ [])
    (hsd : isIsoDate sd = true) (hed : isIsoDate ed = true)
    (hle : charListLe sd ed = true) (d : List Char) (hd : d ∈ districts) :
    0 < substrCount d (build_where_clause districts sd ed)
    ∧ 0 < substrCount sd (build_where_clause districts sd ed)
    ∧ 0 < substrCount ed (build_where_clause districts sd ed) := by
  obtain ⟨hdist, hs, he⟩ := build_where_clause_contains districts sd ed
  exact ⟨substrCount_pos _ _ (hdist d hd), substrCount_pos _ _ hs,
    substrCount_pos _ _ he⟩

/-- Witness for C7 (amended): one three-digit district and the spec's date
range. -/
theorem build_where_clause_amended_witness :
    0 < substrCount "645".toList
        (build_where_clause ["645".toList] "2025-07-26".toList "2025-08-25".toList)
    ∧ 0 < substrCount "2025-07-26".toList
        (build_where_clause ["645".toList] "2025-07-26".toList "2025-08-25".toList)
    ∧ 0 < substrCount "2025-08-25".toList
        (build_where_clause ["645".toList] "2025-07-26".toList "2025-08-25".toList) :=
  build_where_clause_amended ["645".toList] "2025-07-26".toList "2025-08-25".toList
    (by decide) (by decide) (by decide) (by decide) "645".toList (by decide)

/-- Counterexample to C7 as stated: for the district set `{"6", "66"}` and a
valid date range — all of the claim's hypotheses hold — the district code
`"6"` occurs more than once in the clause (inside `'66'` and inside the
dates), so "contains every district code exactly once" fails. -/
theorem build_where_clause_exactly_once_counterexample :
    ["6".toList, "66".toList] ≠ ([] : List (List Char))
    ∧ isIsoDate "2025-07-26".toList = true
    ∧ isIsoDate "2025-08-25".toList = true
    ∧ charListLe "2025-07-26".toList "2025-08-25".toList = true
    ∧ "6".toList ∈ ["6".toList, "66".toList]
    ∧ substrCount "6".toList
        (build_where_clause ["6".toList, "66".toList] "2025-07-26".toList
          "2025-08-25".toList) ≠ 1 := by decide

/-- Membership is preserved by sorted insertion. -/
theorem mem_insertStr (a x : String) (l : List String) :
    a ∈ insertStr x l ↔ a = x ∨ a ∈ l := by
  induction l with
  | nil => simp [insertStr]
  | cons y ys ih =>
    by_cases h : charListLe x.toList y.toList
    · unfold insertStr
      rw [if_pos h]
      simp
    · unfold insertStr
      rw [if_neg h]
      simp only [List.mem_cons, ih]
      tauto

/-- Sorting does not change membership. -/
theorem mem_sortStrings (a : String) (l : List String) :
    a ∈ sortStrings l ↔ a ∈ l := by
  induction l with
  | nil => simp [sortStrings]
  | cons x xs ih => simp [sortStrings, mem_insertStr, ih]

/-- C10: the fieldnames `save_to_csv` passes to the writer are the sorted
union of all record keys, so every record's keys are fieldnames and the
writer's unexpected-field `ValueError` branch can never fire: `writerow`
succeeds on every record of the input. -/
theorem dictToRow_no_extra_keys (data : List Record) (hne : data ≠ [])
    (r : Record) (hr : r ∈ data) :
    (∀ k ∈ keys r, k ∈ fieldnamesOf data)
    ∧ isOkRow (dictToRow (fieldnamesOf data) r) = true := by
  have hsub : ∀ k ∈ keys r, k ∈ fieldnamesOf data := by
    intro k hk
    unfold fieldnamesOf
    rw [mem_sortStrings, List.mem_dedup, List.mem_flatten]
    exact ⟨keys r, List.mem_map_of_mem keys hr, hk⟩
  have hall : (keys r).all (fun k => decide (k ∈ fieldnamesOf data)) = true := by
    rw [List.all_eq_true]
    intro k hk
    rw [decide_eq_true_eq]
    exact hsub k hk
  refine ⟨hsub, ?_⟩
  unfold dictToRow
  rw [if_pos hall]
  rfl

/-- Witness for C10: the first record of the sparse-schema example writes
without an unexpected-field error. -/
theorem dictToRow_no_extra_keys_witness :
    isOkRow (dictToRow (fieldnamesOf recs8) [("a", "1"), ("b", "2")]) = true :=
  (dictToRow_no_extra_keys recs8 (by decide) [("a", "1"), ("b", "2")] (by decide)).2
